import Mathlib

/-!
# DDS v3 instances: the multi-step `Update` sequencer

A shallow embedding of `Update` from `openstack/dds/v3/instances/requests.go`
and of the data it works on.

* Go's `interface{}` is the type `Any`; the nil interface is `Any.nil`.
* Go's `error` is `Option ε`; the nil error is `none`.
* `client.Post` and `client.Put` perform network I/O.  They are state passing
  functions over a transport state `σ`: they receive the url, the request body,
  the current content of the result holder (`&r.Body`), the request options and
  the transport state, and return the new content of the holder, the error and
  the new transport state.  The `*http.Response` they also return is discarded
  by `Update` and is left out.
* The `for ... range` loop with `break` is the recursive function
  `Update.loop`.
-/

namespace Instances

/-- A Go `interface{}` value as `Update` handles it: nil, a scalar, a slice or
a `map[string]interface{}` (an association list of its entries). -/
inductive Any where
  | nil : Any
  | int : Int → Any
  | str : String → Any
  | bool : Bool → Any
  | list : List Any → Any
  | map : List (String × Any) → Any

/-- The part of `golangsdk.RequestOpts` that `Update` sets. -/
structure RequestOpts where
  OkCodes : List Int

/-- `UpdateOpt`, requests.go lines 161-166. -/
structure UpdateOpt where
  Param : String
  Value : Any
  Action : String
  Method : String

/-- `UpdateInstanceResult` embeds `golangsdk.Result` (declared outside this file
of the repository); `Update` touches its fields `Body` and `Err` only. -/
structure UpdateInstanceResult (ε : Type) where
  Body : Any
  Err : Option ε

/-- The signature of `client.Post` and `client.Put`:
url, request body, holder content, options, transport state. -/
abbrev HTTPMethod (σ ε : Type) : Type :=
  String → Any → Any → RequestOpts → σ → (Any × Option ε) × σ

/-- The part of `*golangsdk.ServiceClient` that `Update` uses.  `modifyURL` is
the url builder `modifyURL(client, instanceId, action)` of urls.go, which is not
among the sources; it is a parameter of the model, carried by the client it is
applied to. -/
structure ServiceClient (σ ε : Type) where
  modifyURL : String → String → String
  Post : HTTPMethod σ ε
  Put : HTTPMethod σ ε

/-- The loop of `Update`, requests.go lines 198-223: one iteration per element
of `opts`; `break` when the error just stored in `r.Err` is not nil. -/
def Update.loop {σ ε : Type} (client : ServiceClient σ ε) (instanceId : String) :
    List UpdateOpt → UpdateInstanceResult ε → σ → UpdateInstanceResult ε × σ
  | [], r, s => (r, s)
  | optRaw :: rest, r, s =>
    let url := client.modifyURL instanceId optRaw.Action
    let body : Any :=
      if optRaw.Param ≠ "" then Any.map [(optRaw.Param, optRaw.Value)] else optRaw.Value
    let httpMethod : HTTPMethod σ ε :=
      if optRaw.Method = "post" then client.Post else client.Put
    let out := httpMethod url body r.Body (RequestOpts.mk [200, 202]) s
    let r1 : UpdateInstanceResult ε := UpdateInstanceResult.mk out.1.1 out.1.2
    if r1.Err.isSome then (r1, out.2) else Update.loop client instanceId rest r1 out.2

/-- `Update`, requests.go lines 197-225: the named result `r` starts as the
zero value and is returned after the loop. -/
def Update {σ ε : Type} (client : ServiceClient σ ε) (instanceId : String)
    (opts : List UpdateOpt) (s : σ) : UpdateInstanceResult ε × σ :=
  Update.loop client instanceId opts (UpdateInstanceResult.mk Any.nil none) s

/-! ## Observing the transport

The claims speak of the requests `Update` dispatches.  `recording c` is the
client `c` with a call log added to the transport state: every call of `Post`
or `Put` is forwarded to `c` unchanged and appended to the log together with
the error it returned. -/

/-- Which of the two client methods was called. -/
inductive Verb where
  | post : Verb
  | put : Verb
  deriving DecidableEq

/-- One call of a client method as the transport sees it. -/
structure Request where
  Verb : Verb
  URL : String
  Body : Any
  Opts : RequestOpts

/-- A log entry: the request and the error the transport answered with. -/
structure Call (ε : Type) where
  Req : Request
  Err : Option ε

/-- The client `c` with a call log. -/
def recording {σ ε : Type} (c : ServiceClient σ ε) : ServiceClient (σ × List (Call ε)) ε where
  modifyURL := c.modifyURL
  Post := fun url body holder ro st =>
    let out := c.Post url body holder ro st.1
    (out.1, (out.2, st.2 ++ [Call.mk (Request.mk Verb.post url body ro) out.1.2]))
  Put := fun url body holder ro st =>
    let out := c.Put url body holder ro st.1
    (out.1, (out.2, st.2 ++ [Call.mk (Request.mk Verb.put url body ro) out.1.2]))

/-- The requests dispatched by `Update`, with their outcomes, in order. -/
def dispatched {σ ε : Type} (c : ServiceClient σ ε) (instanceId : String)
    (opts : List UpdateOpt) (s : σ) : List (Call ε) :=
  (Update (recording c) instanceId opts (s, [])).2.2

/-! ## Vocabulary for the behaviour of the transport -/

/-- Hand a request to the client method its verb names. -/
def send {σ ε : Type} (c : ServiceClient σ ε) (req : Request) (holder : Any) (s : σ) :
    (Any × Option ε) × σ :=
  match req.Verb with
  | Verb.post => c.Post req.URL req.Body holder req.Opts s
  | Verb.put => c.Put req.URL req.Body holder req.Opts s

/-- The request of one step: `req(step)`. -/
def stepRequest {σ ε : Type} (c : ServiceClient σ ε) (instanceId : String) (o : UpdateOpt) :
    Request where
  Verb := if o.Method = "post" then Verb.post else Verb.put
  URL := c.modifyURL instanceId o.Action
  Body := if o.Param ≠ "" then Any.map [(o.Param, o.Value)] else o.Value
  Opts := RequestOpts.mk [200, 202]

/-- What the transport answers to the request of step `o` when the holder
contains `holder` and the transport is in state `s`. -/
def answer {σ ε : Type} (c : ServiceClient σ ε) (instanceId : String) (o : UpdateOpt)
    (holder : Any) (s : σ) : (Any × Option ε) × σ :=
  send c (stepRequest c instanceId o) holder s

/-- Holder content and transport state after the transport has answered the
requests of the steps `os`, one after the other, starting from `hs`. -/
def after {σ ε : Type} (c : ServiceClient σ ε) (instanceId : String) :
    List UpdateOpt → Any × σ → Any × σ
  | [], hs => hs
  | o :: os, hs =>
    after c instanceId os
      ((answer c instanceId o hs.1 hs.2).1.1, (answer c instanceId o hs.1 hs.2).2)

/-- The transport succeeds (answers with a nil error) on every step of `os`,
taken one after the other, starting from holder and state `hs`. -/
def AllSucceed {σ ε : Type} (c : ServiceClient σ ε) (instanceId : String) :
    List UpdateOpt → Any × σ → Prop
  | [], _ => True
  | o :: os, hs =>
    (answer c instanceId o hs.1 hs.2).1.2 = none ∧
    AllSucceed c instanceId os
      ((answer c instanceId o hs.1 hs.2).1.1, (answer c instanceId o hs.1 hs.2).2)

/-! ## A scripted transport

A test double: the transport state is the list of replies the server will give
to the coming calls.  A call fails iff the status of its reply is not among the
accepted codes of the request; on success the decoded reply is stored in the
holder.  The error carries the verb, the url and
the status received. -/

/-- A reply of the scripted server: its status and its decoded body. -/
structure Reply where
  Status : Int
  Body : Any

/-- The error of the scripted transport. -/
structure StatusError where
  Method : Verb
  URL : String
  Actual : Int
  deriving DecidableEq

/-- The next reply of the scripted server; once the script has run out the
server replies with status 0 and no body. -/
def nextReply (st : List Reply) : Reply :=
  st.headD (Reply.mk 0 Any.nil)

/-- One call of the scripted transport. -/
def scriptedCall (verb : Verb) : HTTPMethod (List Reply) StatusError :=
  fun url _ holder ro st =>
    if (nextReply st).Status ∈ ro.OkCodes then (((nextReply st).Body, none), st.tail)
    else ((holder, some (StatusError.mk verb url (nextReply st).Status)), st.tail)

/-- The scripted client. -/
def scripted : ServiceClient (List Reply) StatusError where
  modifyURL := fun instanceId action => "/instances/" ++ instanceId ++ "/" ++ action
  Post := scriptedCall Verb.post
  Put := scriptedCall Verb.put

/-- The two steps of the scenario: resize the volume by PUT, then change the
flavor by POST. -/
def scenario : List UpdateOpt :=
  [UpdateOpt.mk "volume" (Any.map [("size", Any.int 20)]) "enlarge-volume" "put",
   UpdateOpt.mk "resize" (Any.map [("target_spec_code", Any.str "dds.c6")]) "resize" "post"]

/-- The transport checks the status: a call fails iff the status of its
response, `status req s`, is not among the accepted codes of the request. -/
def StatusChecked {σ ε : Type} (c : ServiceClient σ ε) (status : Request → σ → Int) : Prop :=
  ∀ (req : Request) (holder : Any) (s : σ),
    (send c req holder s).1.2 = none ↔ status req s ∈ req.Opts.OkCodes

/-- The transport stores the decoded response of every successful call,
`decoded req s`, in the holder. -/
def StoresResponse {σ ε : Type} (c : ServiceClient σ ε) (decoded : Request → σ → Any) : Prop :=
  ∀ (req : Request) (holder : Any) (s : σ),
    (send c req holder s).1.2 = none → (send c req holder s).1.1 = decoded req s

/-- The same step twice. -/
def twice : List UpdateOpt :=
  [UpdateOpt.mk "size" (Any.int 10) "enlarge-volume" "post",
   UpdateOpt.mk "size" (Any.int 10) "enlarge-volume" "post"]

/-- One step with the given `Method`. -/
def oneStep (method : String) : List UpdateOpt :=
  [UpdateOpt.mk "size" (Any.int 10) "enlarge-volume" method]

/-! ## Lemmas on the loop -/

theorem loop_cons {σ ε : Type} (c : ServiceClient σ ε) (instanceId : String)
    (o : UpdateOpt) (rest : List UpdateOpt) (r : UpdateInstanceResult ε) (s : σ) :
    Update.loop c instanceId (o :: rest) r s =
      if (answer c instanceId o r.Body s).1.2.isSome then
        (UpdateInstanceResult.mk (answer c instanceId o r.Body s).1.1
          (answer c instanceId o r.Body s).1.2, (answer c instanceId o r.Body s).2)
      else
        Update.loop c instanceId rest
          (UpdateInstanceResult.mk (answer c instanceId o r.Body s).1.1
            (answer c instanceId o r.Body s).1.2) (answer c instanceId o r.Body s).2 := by
  by_cases hm : o.Method = "post" <;>
    simp [Update.loop, answer, send, stepRequest, hm]

theorem answer_recording {σ ε : Type} (c : ServiceClient σ ε) (instanceId : String)
    (o : UpdateOpt) (holder : Any) (s : σ) (log : List (Call ε)) :
    answer (recording c) instanceId o holder (s, log) =
      ((answer c instanceId o holder s).1,
        ((answer c instanceId o holder s).2,
          log ++ [Call.mk (stepRequest c instanceId o) (answer c instanceId o holder s).1.2])) := by
  by_cases hm : o.Method = "post" <;>
    simp [answer, send, stepRequest, recording, hm]

theorem loop_recording_cons {σ ε : Type} (c : ServiceClient σ ε) (instanceId : String)
    (o : UpdateOpt) (rest : List UpdateOpt) (r : UpdateInstanceResult ε) (s : σ)
    (log : List (Call ε)) :
    Update.loop (recording c) instanceId (o :: rest) r (s, log) =
      if (answer c instanceId o r.Body s).1.2.isSome then
        (UpdateInstanceResult.mk (answer c instanceId o r.Body s).1.1
          (answer c instanceId o r.Body s).1.2,
          ((answer c instanceId o r.Body s).2,
            log ++ [Call.mk (stepRequest c instanceId o) (answer c instanceId o r.Body s).1.2]))
      else
        Update.loop (recording c) instanceId rest
          (UpdateInstanceResult.mk (answer c instanceId o r.Body s).1.1
            (answer c instanceId o r.Body s).1.2)
          ((answer c instanceId o r.Body s).2,
            log ++ [Call.mk (stepRequest c instanceId o) (answer c instanceId o r.Body s).1.2]) := by
  rw [loop_cons, answer_recording]

/-- While the transport succeeds, the loop walks on: the steps of a prefix on
which every call succeeds are each dispatched once, in order, and the loop
continues with the rest. -/
theorem loop_append_of_allSucceed {σ ε : Type} (c : ServiceClient σ ε) (instanceId : String)
    (pre rest : List UpdateOpt) :
    ∀ (r : UpdateInstanceResult ε) (s : σ) (log : List (Call ε)),
      r.Err = none → AllSucceed c instanceId pre (r.Body, s) →
      Update.loop (recording c) instanceId (pre ++ rest) r (s, log) =
        Update.loop (recording c) instanceId rest
          (UpdateInstanceResult.mk (after c instanceId pre (r.Body, s)).1 none)
          ((after c instanceId pre (r.Body, s)).2,
            log ++ pre.map (fun o => Call.mk (stepRequest c instanceId o) none)) := by
  induction pre with
  | nil =>
    intro r s log hr _
    cases r with
    | mk b e =>
      simp only [] at hr
      subst hr
      simp [after]
  | cons o os ih =>
    intro r s log _ hall
    obtain ⟨h1, h2⟩ := hall
    rw [List.cons_append, loop_recording_cons]
    simp only [h1, Option.isSome_none, Bool.false_eq_true, if_false]
    rw [ih _ _ _ rfl h2]
    simp [after]

/-- The log only grows, by the requests of a prefix of the steps. -/
theorem loop_log_shape {σ ε : Type} (c : ServiceClient σ ε) (instanceId : String)
    (opts : List UpdateOpt) :
    ∀ (r : UpdateInstanceResult ε) (s : σ) (log : List (Call ε)),
      ∃ m, m ≤ opts.length ∧
        ((Update.loop (recording c) instanceId opts r (s, log)).2.2).map Call.Req =
          log.map Call.Req ++ (opts.take m).map (stepRequest c instanceId) := by
  induction opts with
  | nil =>
    intro r s log
    exact ⟨0, le_refl _, by simp [Update.loop]⟩
  | cons o os ih =>
    intro r s log
    rw [loop_recording_cons]
    by_cases hf : (answer c instanceId o r.Body s).1.2.isSome
    · refine ⟨1, by simp, ?_⟩
      simp [hf]
    · obtain ⟨m, hm, heq⟩ := ih
        (UpdateInstanceResult.mk (answer c instanceId o r.Body s).1.1
          (answer c instanceId o r.Body s).1.2)
        (answer c instanceId o r.Body s).2
        (log ++ [Call.mk (stepRequest c instanceId o) (answer c instanceId o r.Body s).1.2])
      refine ⟨m + 1, by simpa using hm, ?_⟩
      simp only [hf, Bool.false_eq_true, if_false]
      rw [heq]
      simp

/-- The call log does not change what `Update` computes. -/
theorem loop_recording_transparent {σ ε : Type} (c : ServiceClient σ ε) (instanceId : String)
    (opts : List UpdateOpt) :
    ∀ (r : UpdateInstanceResult ε) (s : σ) (log : List (Call ε)),
      (Update.loop (recording c) instanceId opts r (s, log)).1 =
          (Update.loop c instanceId opts r s).1 ∧
        (Update.loop (recording c) instanceId opts r (s, log)).2.1 =
          (Update.loop c instanceId opts r s).2 := by
  induction opts with
  | nil => intro r s log; simp [Update.loop]
  | cons o os ih =>
    intro r s log
    rw [loop_recording_cons, loop_cons]
    by_cases hf : (answer c instanceId o r.Body s).1.2.isSome
    · simp [hf]
    · simp only [hf, Bool.false_eq_true, if_false]
      exact ih _ _ _

theorem dispatched_shape {σ ε : Type} (c : ServiceClient σ ε) (instanceId : String)
    (opts : List UpdateOpt) (s : σ) :
    ∃ m, m ≤ opts.length ∧
      (dispatched c instanceId opts s).map Call.Req =
        (opts.take m).map (stepRequest c instanceId) := by
  obtain ⟨m, hm, heq⟩ :=
    loop_log_shape c instanceId opts (UpdateInstanceResult.mk Any.nil none) s []
  exact ⟨m, hm, by simpa [dispatched, Update] using heq⟩

/-- The request logged at position `i` is the request of step `i`. -/
theorem dispatched_getElem? {σ ε : Type} (c : ServiceClient σ ε) (instanceId : String)
    (opts : List UpdateOpt) (s : σ) (i : Nat) (call : Call ε) (o : UpdateOpt)
    (hcall : (dispatched c instanceId opts s)[i]? = some call)
    (hopt : opts[i]? = some o) :
    call.Req = stepRequest c instanceId o := by
  obtain ⟨m, _, heq⟩ := dispatched_shape c instanceId opts s
  have h1 : ((dispatched c instanceId opts s).map Call.Req)[i]? = some call.Req := by
    simp [hcall]
  rw [heq] at h1
  rw [List.getElem?_map, List.getElem?_take] at h1
  split at h1
  · rw [hopt] at h1
    simpa using h1.symm
  · simp at h1

/-- No more requests than steps. -/
theorem dispatched_length_le {σ ε : Type} (c : ServiceClient σ ε) (instanceId : String)
    (opts : List UpdateOpt) (s : σ) :
    (dispatched c instanceId opts s).length ≤ opts.length := by
  obtain ⟨m, hm, heq⟩ := dispatched_shape c instanceId opts s
  have h := congrArg List.length heq
  simp only [List.length_map, List.length_take] at h
  omega

/-- The error the loop returns is the one it started with if nothing was
dispatched, and otherwise the error of the last call dispatched. -/
theorem loop_err_last {σ ε : Type} (c : ServiceClient σ ε) (instanceId : String)
    (opts : List UpdateOpt) :
    ∀ (r : UpdateInstanceResult ε) (s : σ) (log : List (Call ε)),
      (log.getLast?.map Call.Err).getD r.Err = r.Err →
      (Update.loop (recording c) instanceId opts r (s, log)).1.Err =
        (((Update.loop (recording c) instanceId opts r (s, log)).2.2).getLast?.map
          Call.Err).getD r.Err := by
  induction opts with
  | nil => intro r s log h; simp [Update.loop, h]
  | cons o os ih =>
    intro r s log _
    rw [loop_recording_cons]
    by_cases hf : (answer c instanceId o r.Body s).1.2.isSome
    · simp [hf]
    · simp only [hf, Bool.false_eq_true, if_false]
      have hn : (answer c instanceId o r.Body s).1.2 = none := by
        simpa using hf
      have key := ih
        (UpdateInstanceResult.mk (answer c instanceId o r.Body s).1.1
          (answer c instanceId o r.Body s).1.2)
        (answer c instanceId o r.Body s).2
        (log ++ [Call.mk (stepRequest c instanceId o) (answer c instanceId o r.Body s).1.2])
        (by simp)
      rw [key]
      simp only [hn]
      cases hr : r.Err with
      | none => rfl
      | some e =>
        cases hl : (Update.loop (recording c) instanceId os
            (UpdateInstanceResult.mk (answer c instanceId o r.Body s).1.1 none)
            ((answer c instanceId o r.Body s).2,
              log ++ [Call.mk (stepRequest c instanceId o) none])).2.2.getLast? with
        | none =>
          exfalso
          obtain ⟨m, _, heq⟩ := loop_log_shape c instanceId os
            (UpdateInstanceResult.mk (answer c instanceId o r.Body s).1.1 none)
            (answer c instanceId o r.Body s).2
            (log ++ [Call.mk (stepRequest c instanceId o) none])
          rw [List.getLast?_eq_none_iff] at hl
          rw [hl] at heq
          simp at heq
        | some call => simp

/-- The run of `Update` that fails at step `k` after `k - 1` successes. -/
theorem Update_fail_at {σ ε : Type} (c : ServiceClient σ ε) (instanceId : String)
    (opts : List UpdateOpt) (k : Nat) (s : σ) (o : UpdateOpt) (e : ε)
    (hk1 : 1 ≤ k) (hk : k ≤ opts.length)
    (hstep : opts[k - 1]? = some o)
    (hok : AllSucceed c instanceId (opts.take (k - 1)) (Any.nil, s))
    (hfail : (answer c instanceId o
        (after c instanceId (opts.take (k - 1)) (Any.nil, s)).1
        (after c instanceId (opts.take (k - 1)) (Any.nil, s)).2).1.2 = some e) :
    dispatched c instanceId opts s =
        (opts.take (k - 1)).map (fun p => Call.mk (stepRequest c instanceId p) none) ++
          [Call.mk (stepRequest c instanceId o) (some e)] ∧
      (dispatched c instanceId opts s).length = k ∧
      (dispatched c instanceId opts s).map Call.Req =
        (opts.take k).map (stepRequest c instanceId) ∧
      (Update c instanceId opts s).1.Err = some e := by
  have hlt : k - 1 < opts.length := by omega
  have hsplit : opts = opts.take (k - 1) ++ o :: opts.drop k := by
    have hget : opts[k - 1] = o := by
      have := List.getElem?_eq_getElem hlt
      rw [this] at hstep
      exact Option.some.inj hstep
    have hd : opts.drop (k - 1) = o :: opts.drop k := by
      rw [List.drop_eq_getElem_cons hlt, hget]
      congr 2
      omega
    rw [← hd, List.take_append_drop]
  have key := loop_append_of_allSucceed c instanceId (opts.take (k - 1)) (o :: opts.drop k)
    (UpdateInstanceResult.mk Any.nil none) s [] rfl hok
  rw [← hsplit, loop_recording_cons] at key
  simp only [hfail, Option.isSome_some, if_true, List.nil_append] at key
  have hd : dispatched c instanceId opts s =
      (opts.take (k - 1)).map (fun p => Call.mk (stepRequest c instanceId p) none) ++
        [Call.mk (stepRequest c instanceId o) (some e)] := by
    simp [dispatched, Update, key]
  have htk : opts.take k = opts.take (k - 1) ++ [o] := by
    have h1 : k = (k - 1) + 1 := by omega
    conv_lhs => rw [h1]
    rw [List.take_succ, hstep]
    rfl
  refine ⟨hd, ?_, ?_, ?_⟩
  · rw [hd]
    simp only [List.length_append, List.length_map, List.length_take, List.length_singleton]
    omega
  · rw [hd, htk]
    simp only [List.map_append, List.map_map, List.map_cons, List.map_nil]
    rfl
  · have ht := (loop_recording_transparent c instanceId opts
      (UpdateInstanceResult.mk Any.nil none) s []).1
    rw [key] at ht
    simp only [Update, ← ht]

theorem allSucceed_append {σ ε : Type} (c : ServiceClient σ ε) (instanceId : String)
    (pre rest : List UpdateOpt) :
    ∀ (hs : Any × σ), AllSucceed c instanceId (pre ++ rest) hs →
      AllSucceed c instanceId pre hs ∧
        AllSucceed c instanceId rest (after c instanceId pre hs) := by
  induction pre with
  | nil => intro hs h; exact ⟨trivial, h⟩
  | cons o os ih =>
    intro hs h
    obtain ⟨h1, h2⟩ := h
    obtain ⟨h3, h4⟩ := ih _ h2
    exact ⟨⟨h1, h3⟩, h4⟩

/-- The result of a one-step run is what the transport answers to that step. -/
theorem Update_single {σ ε : Type} (c : ServiceClient σ ε) (instanceId : String)
    (o : UpdateOpt) (s : σ) :
    Update c instanceId [o] s =
      (UpdateInstanceResult.mk (answer c instanceId o Any.nil s).1.1
        (answer c instanceId o Any.nil s).1.2, (answer c instanceId o Any.nil s).2) := by
  rw [Update, loop_cons]
  split <;> simp [Update.loop]

theorem scripted_statusChecked :
    StatusChecked scripted (fun _ st => (nextReply st).Status) := by
  intro req holder st
  cases hv : req.Verb <;>
    by_cases hm : (nextReply st).Status ∈ req.Opts.OkCodes <;>
    simp [send, scripted, scriptedCall, hv, hm]

theorem scripted_storesResponse :
    StoresResponse scripted (fun _ st => (nextReply st).Body) := by
  intro req holder st
  cases hv : req.Verb <;>
    by_cases hm : (nextReply st).Status ∈ req.Opts.OkCodes <;>
    simp [send, scripted, scriptedCall, hv, hm]

/-- The error `Update` returns is the error of the last call dispatched, and
nil when nothing was dispatched. -/
theorem Update_err_last {σ ε : Type} (c : ServiceClient σ ε) (instanceId : String)
    (opts : List UpdateOpt) (s : σ) :
    (Update c instanceId opts s).1.Err =
      ((dispatched c instanceId opts s).getLast?.map Call.Err).getD none := by
  have h := loop_err_last c instanceId opts (UpdateInstanceResult.mk Any.nil none) s [] rfl
  have ht := (loop_recording_transparent c instanceId opts
    (UpdateInstanceResult.mk Any.nil none) s []).1
  rw [ht] at h
  exact h

/-- A one-step run dispatches the request of the step. -/
theorem dispatched_single {σ ε : Type} (c : ServiceClient σ ε) (instanceId : String)
    (o : UpdateOpt) (s : σ) :
    dispatched c instanceId [o] s =
      [Call.mk (stepRequest c instanceId o) (answer c instanceId o Any.nil s).1.2] := by
  unfold dispatched Update
  rw [loop_recording_cons]
  split <;> simp [Update.loop]

/-- The request a one-step run over the scripted transport dispatches. -/
theorem dispatched_oneStep (m : String) :
    (dispatched scripted "i1" (oneStep m) [Reply.mk 200 Any.nil])[0]? =
      some (Call.mk
        (stepRequest scripted "i1" (UpdateOpt.mk "size" (Any.int 10) "enlarge-volume" m))
        (answer scripted "i1" (UpdateOpt.mk "size" (Any.int 10) "enlarge-volume" m)
          Any.nil [Reply.mk 200 Any.nil]).1.2) := by
  rw [oneStep, dispatched_single]
  rfl

/-! ## The claims -/

/-- C3: with an empty step list `Update` returns the zero result (nil `Err`,
unset `Body`), leaves the transport state as it was, and dispatches no
request. -/
theorem Update_nil {σ ε : Type} (c : ServiceClient σ ε) (instanceId : String) (s : σ) :
    Update c instanceId [] s = (UpdateInstanceResult.mk Any.nil none, s) ∧
      dispatched c instanceId [] s = [] := by
  simp [Update, dispatched, Update.loop]

/-- C2: when the transport succeeds on every step, `Update` dispatches exactly
one request per step, `len(opts)` in all, each answered without error, and
returns a nil `Err`. -/
theorem Update_all_succeed {σ ε : Type} (c : ServiceClient σ ε) (instanceId : String)
    (opts : List UpdateOpt) (s : σ)
    (hall : AllSucceed c instanceId opts (Any.nil, s)) :
    dispatched c instanceId opts s =
        opts.map (fun o => Call.mk (stepRequest c instanceId o) none) ∧
      (dispatched c instanceId opts s).length = opts.length ∧
      (Update c instanceId opts s).1.Err = none := by
  have key := loop_append_of_allSucceed c instanceId opts []
    (UpdateInstanceResult.mk Any.nil none) s [] rfl hall
  rw [List.append_nil] at key
  have hd : dispatched c instanceId opts s =
      opts.map (fun o => Call.mk (stepRequest c instanceId o) none) := by
    simp [dispatched, Update, key, Update.loop]
  refine ⟨hd, by simp [hd], ?_⟩
  have ht := (loop_recording_transparent c instanceId opts
    (UpdateInstanceResult.mk Any.nil none) s []).1
  rw [key] at ht
  simp only [Update, ← ht, Update.loop]

/-- C1: fail-fast.  If the transport succeeds on steps `1..k-1` and answers
step `k` with the error `e`, then `Update` dispatches exactly `k` requests, the
requests of steps `1..k-1` answered without error followed by the request of
step `k` answered with `e`, nothing for the steps after `k`, and returns
`Err = e`. -/
theorem Update_fail_fast {σ ε : Type} (c : ServiceClient σ ε) (instanceId : String)
    (opts : List UpdateOpt) (k : Nat) (s : σ) (o : UpdateOpt) (e : ε)
    (hk1 : 1 ≤ k) (hk : k ≤ opts.length)
    (hstep : opts[k - 1]? = some o)
    (hok : AllSucceed c instanceId (opts.take (k - 1)) (Any.nil, s))
    (hfail : (answer c instanceId o
        (after c instanceId (opts.take (k - 1)) (Any.nil, s)).1
        (after c instanceId (opts.take (k - 1)) (Any.nil, s)).2).1.2 = some e) :
    dispatched c instanceId opts s =
        (opts.take (k - 1)).map (fun p => Call.mk (stepRequest c instanceId p) none) ++
          [Call.mk (stepRequest c instanceId o) (some e)] ∧
      (dispatched c instanceId opts s).length = k ∧
      (dispatched c instanceId opts s).map Call.Req =
        (opts.take k).map (stepRequest c instanceId) ∧
      (Update c instanceId opts s).1.Err = some e :=
  Update_fail_at c instanceId opts k s o e hk1 hk hstep hok hfail

/-- C4: ordered, retry-free dispatch.  Whatever the transport does, the
requests `Update` dispatches are the requests of the first `m` steps, for some
`m ≤ len(opts)`, each once and in the order of the steps; the request of a step
targets `modifyURL(client, instanceId, step.Action)`. -/
theorem Update_dispatch_ordered {σ ε : Type} (c : ServiceClient σ ε) (instanceId : String)
    (opts : List UpdateOpt) (s : σ) :
    ∃ m, m ≤ opts.length ∧
      (dispatched c instanceId opts s).length = m ∧
      (dispatched c instanceId opts s).map Call.Req =
        (opts.take m).map (stepRequest c instanceId) ∧
      (dispatched c instanceId opts s).map (fun call => call.Req.URL) =
        (opts.take m).map (fun o => c.modifyURL instanceId o.Action) := by
  obtain ⟨m, hm, heq⟩ := dispatched_shape c instanceId opts s
  refine ⟨m, hm, ?_, heq, ?_⟩
  · have h := congrArg List.length heq
    simp only [List.length_map, List.length_take] at h
    omega
  · have h := congrArg (List.map Request.URL) heq
    simpa [List.map_map, Function.comp_def, stepRequest] using h

/-- The scenario of the spec: the volume resize is answered 202, the flavor
change 500.  Two requests are dispatched, the second one fails, and its error
is returned. -/
theorem Update_fail_fast_witness :
    (dispatched scripted "i1" scenario
        [Reply.mk 202 Any.nil, Reply.mk 500 Any.nil]).length = 2 ∧
      (dispatched scripted "i1" scenario
        [Reply.mk 202 Any.nil, Reply.mk 500 Any.nil]).map Call.Err =
        [none, some (StatusError.mk Verb.post "/instances/i1/resize" 500)] ∧
      (Update scripted "i1" scenario [Reply.mk 202 Any.nil, Reply.mk 500 Any.nil]).1.Err =
        some (StatusError.mk Verb.post "/instances/i1/resize" 500) := by
  have h := Update_fail_fast scripted "i1" scenario 2
    [Reply.mk 202 Any.nil, Reply.mk 500 Any.nil]
    (UpdateOpt.mk "resize" (Any.map [("target_spec_code", Any.str "dds.c6")]) "resize" "post")
    (StatusError.mk Verb.post "/instances/i1/resize" 500)
    (by decide) (by decide) rfl
    (by simp [AllSucceed, scenario, answer, send, stepRequest, scripted, scriptedCall, nextReply])
    (by simp [after, scenario, answer, send, stepRequest, scripted, scriptedCall, nextReply])
  refine ⟨h.2.1, ?_, h.2.2.2⟩
  rw [h.1]
  simp [scenario]

/-- Both steps of the scenario answered 202 and 200: two requests, no error. -/
theorem Update_all_succeed_witness :
    (dispatched scripted "i1" scenario
        [Reply.mk 202 Any.nil, Reply.mk 200 Any.nil]).length = 2 ∧
      (Update scripted "i1" scenario [Reply.mk 202 Any.nil, Reply.mk 200 Any.nil]).1.Err =
        none := by
  have h := Update_all_succeed scripted "i1" scenario
    [Reply.mk 202 Any.nil, Reply.mk 200 Any.nil]
    (by simp [AllSucceed, scenario, answer, send, stepRequest, scripted, scriptedCall, nextReply])
  exact ⟨h.2.1, h.2.2⟩

/-- C5: the body of the request dispatched for a step is the one-entry map
`{Param: Value}` when `Param` is not empty, and `Value` itself when `Param` is
empty. -/
theorem Update_request_body {σ ε : Type} (c : ServiceClient σ ε) (instanceId : String)
    (opts : List UpdateOpt) (s : σ) (i : Nat) (call : Call ε) (o : UpdateOpt)
    (hcall : (dispatched c instanceId opts s)[i]? = some call)
    (hopt : opts[i]? = some o) :
    (o.Param ≠ "" → call.Req.Body = Any.map [(o.Param, o.Value)]) ∧
      (o.Param = "" → call.Req.Body = o.Value) := by
  rw [dispatched_getElem? c instanceId opts s i call o hcall hopt]
  constructor <;> intro h <;> simp [stepRequest, h]

/-- `Param = "size"` with `Value = 10` sends `{"size": 10}`; no `Param` with
`Value = {"a": 1}` sends `{"a": 1}`. -/
theorem Update_request_body_witness :
    (∃ call, (dispatched scripted "i1"
          [UpdateOpt.mk "size" (Any.int 10) "enlarge-volume" "post"]
          [Reply.mk 202 Any.nil])[0]? = some call ∧
        call.Req.Body = Any.map [("size", Any.int 10)]) ∧
      (∃ call, (dispatched scripted "i1"
          [UpdateOpt.mk "" (Any.map [("a", Any.int 1)]) "resize" "post"]
          [Reply.mk 202 Any.nil])[0]? = some call ∧
        call.Req.Body = Any.map [("a", Any.int 1)]) := by
  constructor
  · have hd : (dispatched scripted "i1"
        [UpdateOpt.mk "size" (Any.int 10) "enlarge-volume" "post"]
        [Reply.mk 202 Any.nil])[0]? =
        some (Call.mk (stepRequest scripted "i1"
          (UpdateOpt.mk "size" (Any.int 10) "enlarge-volume" "post")) none) := by
      simp [dispatched, Update, Update.loop, recording, scripted, scriptedCall, nextReply, stepRequest]
    exact ⟨_, hd, (Update_request_body scripted "i1" _ _ 0 _ _ hd rfl).1 (by decide)⟩
  · have hd : (dispatched scripted "i1"
        [UpdateOpt.mk "" (Any.map [("a", Any.int 1)]) "resize" "post"]
        [Reply.mk 202 Any.nil])[0]? =
        some (Call.mk (stepRequest scripted "i1"
          (UpdateOpt.mk "" (Any.map [("a", Any.int 1)]) "resize" "post")) none) := by
      simp [dispatched, Update, Update.loop, recording, scripted, scriptedCall, nextReply, stepRequest]
    exact ⟨_, hd, (Update_request_body scripted "i1" _ _ 0 _ _ hd rfl).2 rfl⟩

/-- C8: the one request dispatched for a step whose `Method` is "post" goes
through the client's `Post` and not through `Put`; the one dispatched for a step
whose `Method` is "put" goes through `Put` and not through `Post`; there are no
more requests than steps. -/
theorem Update_verb {σ ε : Type} (c : ServiceClient σ ε) (instanceId : String)
    (opts : List UpdateOpt) (s : σ) (i : Nat) (call : Call ε) (o : UpdateOpt)
    (hcall : (dispatched c instanceId opts s)[i]? = some call)
    (hopt : opts[i]? = some o) :
    (o.Method = "post" → call.Req.Verb = Verb.post ∧ call.Req.Verb ≠ Verb.put) ∧
      (o.Method = "put" → call.Req.Verb = Verb.put ∧ call.Req.Verb ≠ Verb.post) ∧
      (dispatched c instanceId opts s).length ≤ opts.length := by
  rw [dispatched_getElem? c instanceId opts s i call o hcall hopt]
  refine ⟨?_, ?_, dispatched_length_le c instanceId opts s⟩ <;>
    intro h <;> simp [stepRequest, h]

/-- In the scenario the first request goes through `Put` and the second one
through `Post`. -/
theorem Update_verb_witness :
    (dispatched scripted "i1" scenario
        [Reply.mk 202 Any.nil, Reply.mk 200 Any.nil]).map (fun call => call.Req.Verb) =
      [Verb.put, Verb.post] := by
  have hd : dispatched scripted "i1" scenario [Reply.mk 202 Any.nil, Reply.mk 200 Any.nil] =
      [Call.mk (stepRequest scripted "i1" (UpdateOpt.mk "volume"
          (Any.map [("size", Any.int 20)]) "enlarge-volume" "put")) none,
       Call.mk (stepRequest scripted "i1" (UpdateOpt.mk "resize"
          (Any.map [("target_spec_code", Any.str "dds.c6")]) "resize" "post")) none] := by
    simp [dispatched, Update, Update.loop, recording, scripted, scriptedCall, nextReply, stepRequest,
      scenario]
  have h0 : (stepRequest scripted "i1" (UpdateOpt.mk "volume"
      (Any.map [("size", Any.int 20)]) "enlarge-volume" "put")).Verb = Verb.put :=
    ((Update_verb scripted "i1" scenario
      [Reply.mk 202 Any.nil, Reply.mk 200 Any.nil] 0 _ _ (by rw [hd]; rfl) rfl).2.1 rfl).1
  have h1 : (stepRequest scripted "i1" (UpdateOpt.mk "resize"
      (Any.map [("target_spec_code", Any.str "dds.c6")]) "resize" "post")).Verb = Verb.post :=
    ((Update_verb scripted "i1" scenario
      [Reply.mk 202 Any.nil, Reply.mk 200 Any.nil] 1 _ _ (by rw [hd]; rfl) rfl).1 rfl).1
  rw [hd]
  simp only [List.map_cons, List.map_nil, h0, h1]

/-- C6: every request `Update` dispatches, by `Post` or by `Put`, carries the
accepted codes `[200, 202]`; so over a transport that fails a call iff the
status of the response is not an accepted code, a step succeeds iff the status
is 200 or 202, and 400, 500, 201 and 204 make it fail. -/
theorem Update_ok_codes {σ ε : Type} (c : ServiceClient σ ε) (instanceId : String) :
    (∀ (opts : List UpdateOpt) (s : σ) (call : Call ε),
        call ∈ dispatched c instanceId opts s → call.Req.Opts.OkCodes = [200, 202]) ∧
      (∀ (status : Request → σ → Int), StatusChecked c status →
        ∀ (o : UpdateOpt) (s : σ),
          ((Update c instanceId [o] s).1.Err = none ↔
            (status (stepRequest c instanceId o) s = 200 ∨
              status (stepRequest c instanceId o) s = 202)) ∧
          (status (stepRequest c instanceId o) s ∈ [400, 500, 201, 204] →
            (Update c instanceId [o] s).1.Err ≠ none)) := by
  constructor
  · intro opts s call hmem
    obtain ⟨m, _, heq⟩ := dispatched_shape c instanceId opts s
    have h1 : call.Req ∈ (dispatched c instanceId opts s).map Call.Req :=
      List.mem_map_of_mem _ hmem
    rw [heq, List.mem_map] at h1
    obtain ⟨o, _, ho⟩ := h1
    rw [← ho]
    rfl
  · intro status hc o s
    have hiff : (Update c instanceId [o] s).1.Err = none ↔
        (status (stepRequest c instanceId o) s = 200 ∨
          status (stepRequest c instanceId o) s = 202) := by
      rw [Update_single]
      have h := hc (stepRequest c instanceId o) Any.nil s
      simp only [answer]
      rw [h]
      simp [stepRequest]
    refine ⟨hiff, ?_⟩
    intro hmem hnone
    rcases hiff.mp hnone with h | h <;> rw [h] at hmem <;> simp at hmem

/-- Over the scripted transport a step answered 200 or 202 succeeds and a step
answered 400, 500, 201 or 204 fails. -/
theorem Update_ok_codes_witness :
    (Update scripted "i1" [UpdateOpt.mk "size" (Any.int 10) "enlarge-volume" "post"]
        [Reply.mk 200 Any.nil]).1.Err = none ∧
      (Update scripted "i1" [UpdateOpt.mk "size" (Any.int 10) "enlarge-volume" "put"]
        [Reply.mk 202 Any.nil]).1.Err = none ∧
      (Update scripted "i1" [UpdateOpt.mk "size" (Any.int 10) "enlarge-volume" "post"]
        [Reply.mk 400 Any.nil]).1.Err ≠ none ∧
      (Update scripted "i1" [UpdateOpt.mk "size" (Any.int 10) "enlarge-volume" "put"]
        [Reply.mk 500 Any.nil]).1.Err ≠ none ∧
      (Update scripted "i1" [UpdateOpt.mk "size" (Any.int 10) "enlarge-volume" "post"]
        [Reply.mk 201 Any.nil]).1.Err ≠ none ∧
      (Update scripted "i1" [UpdateOpt.mk "size" (Any.int 10) "enlarge-volume" "put"]
        [Reply.mk 204 Any.nil]).1.Err ≠ none :=
  ⟨((Update_ok_codes scripted "i1").2 _ scripted_statusChecked _ _).1.mpr (Or.inl rfl),
   ((Update_ok_codes scripted "i1").2 _ scripted_statusChecked _ _).1.mpr (Or.inr rfl),
   ((Update_ok_codes scripted "i1").2 _ scripted_statusChecked _ _).2 (by decide),
   ((Update_ok_codes scripted "i1").2 _ scripted_statusChecked _ _).2 (by decide),
   ((Update_ok_codes scripted "i1").2 _ scripted_statusChecked _ _).2 (by decide),
   ((Update_ok_codes scripted "i1").2 _ scripted_statusChecked _ _).2 (by decide)⟩

/-- C9: every step decodes into the same holder, `r.Body`.  When every step of a
non-empty step list succeeds and the transport stores the decoded response of
each successful call in the holder, the `Body` returned is the decoded response
of the last step. -/
theorem Update_last_body {σ ε : Type} (c : ServiceClient σ ε) (instanceId : String)
    (decoded : Request → σ → Any) (pre : List UpdateOpt) (last : UpdateOpt) (s : σ)
    (hst : StoresResponse c decoded)
    (hall : AllSucceed c instanceId (pre ++ [last]) (Any.nil, s)) :
    (Update c instanceId (pre ++ [last]) s).1.Body =
      decoded (stepRequest c instanceId last) (after c instanceId pre (Any.nil, s)).2 := by
  obtain ⟨hpre, hlast, _⟩ := allSucceed_append c instanceId pre [last] _ hall
  have key := loop_append_of_allSucceed c instanceId pre [last]
    (UpdateInstanceResult.mk Any.nil none) s [] rfl hpre
  rw [loop_recording_cons] at key
  simp only [hlast, Option.isSome_none, Bool.false_eq_true, if_false, Update.loop] at key
  have ht := (loop_recording_transparent c instanceId (pre ++ [last])
    (UpdateInstanceResult.mk Any.nil none) s []).1
  rw [key] at ht
  simp only [Update, ← ht]
  exact hst _ _ _ hlast

/-- In the scenario, with the first step answered "first" and the second one
"second", the `Body` returned is "second". -/
theorem Update_last_body_witness :
    (Update scripted "i1" scenario
        [Reply.mk 202 (Any.str "first"), Reply.mk 200 (Any.str "second")]).1.Body =
      Any.str "second" :=
  Update_last_body scripted "i1" (fun _ st => (nextReply st).Body)
    [UpdateOpt.mk "volume" (Any.map [("size", Any.int 20)]) "enlarge-volume" "put"]
    (UpdateOpt.mk "resize" (Any.map [("target_spec_code", Any.str "dds.c6")]) "resize" "post")
    [Reply.mk 202 (Any.str "first"), Reply.mk 200 (Any.str "second")]
    scripted_storesResponse
    (by simp [AllSucceed, answer, send, stepRequest, scripted, scriptedCall, nextReply])

/-- C10: `Method` is compared with the exact string "post" and is not
validated.  The request of a step goes through `Post` iff the step's `Method` is
"post"; with any other `Method` it goes through `Put`; and the error `Update`
returns is always the error of the last call dispatched, so no error is
reported for an unsupported `Method`. -/
theorem Update_method_exact {σ ε : Type} (c : ServiceClient σ ε) (instanceId : String)
    (opts : List UpdateOpt) (s : σ) (i : Nat) (call : Call ε) (o : UpdateOpt)
    (hcall : (dispatched c instanceId opts s)[i]? = some call)
    (hopt : opts[i]? = some o) :
    (call.Req.Verb = Verb.post ↔ o.Method = "post") ∧
      (o.Method ≠ "post" → call.Req.Verb = Verb.put) ∧
      (Update c instanceId opts s).1.Err =
        ((dispatched c instanceId opts s).getLast?.map Call.Err).getD none := by
  rw [dispatched_getElem? c instanceId opts s i call o hcall hopt]
  refine ⟨?_, ?_, Update_err_last c instanceId opts s⟩
  · by_cases h : o.Method = "post" <;> simp [stepRequest, h]
  · intro h
    simp [stepRequest, h]

/-- The values "POST", "Post", "", "put" and "delete" of `Method` all send the
request through `Put`. -/
theorem Update_method_exact_witness :
    (∃ call, (dispatched scripted "i1" (oneStep "POST") [Reply.mk 200 Any.nil])[0]? = some call ∧
        call.Req.Verb = Verb.put) ∧
      (∃ call, (dispatched scripted "i1" (oneStep "Post") [Reply.mk 200 Any.nil])[0]? = some call ∧
        call.Req.Verb = Verb.put) ∧
      (∃ call, (dispatched scripted "i1" (oneStep "") [Reply.mk 200 Any.nil])[0]? = some call ∧
        call.Req.Verb = Verb.put) ∧
      (∃ call, (dispatched scripted "i1" (oneStep "put") [Reply.mk 200 Any.nil])[0]? = some call ∧
        call.Req.Verb = Verb.put) ∧
      (∃ call, (dispatched scripted "i1" (oneStep "delete") [Reply.mk 200 Any.nil])[0]? = some call ∧
        call.Req.Verb = Verb.put) :=
  ⟨⟨_, dispatched_oneStep "POST",
      (Update_method_exact scripted "i1" (oneStep "POST") [Reply.mk 200 Any.nil] 0 _
        (UpdateOpt.mk "size" (Any.int 10) "enlarge-volume" "POST")
        (dispatched_oneStep "POST") rfl).2.1 (by decide)⟩,
    ⟨_, dispatched_oneStep "Post",
      (Update_method_exact scripted "i1" (oneStep "Post") [Reply.mk 200 Any.nil] 0 _
        (UpdateOpt.mk "size" (Any.int 10) "enlarge-volume" "Post")
        (dispatched_oneStep "Post") rfl).2.1 (by decide)⟩,
    ⟨_, dispatched_oneStep "",
      (Update_method_exact scripted "i1" (oneStep "") [Reply.mk 200 Any.nil] 0 _
        (UpdateOpt.mk "size" (Any.int 10) "enlarge-volume" "")
        (dispatched_oneStep "") rfl).2.1 (by decide)⟩,
    ⟨_, dispatched_oneStep "put",
      (Update_method_exact scripted "i1" (oneStep "put") [Reply.mk 200 Any.nil] 0 _
        (UpdateOpt.mk "size" (Any.int 10) "enlarge-volume" "put")
        (dispatched_oneStep "put") rfl).2.1 (by decide)⟩,
    ⟨_, dispatched_oneStep "delete",
      (Update_method_exact scripted "i1" (oneStep "delete") [Reply.mk 200 Any.nil] 0 _
        (UpdateOpt.mk "size" (Any.int 10) "enlarge-volume" "delete")
        (dispatched_oneStep "delete") rfl).2.1 (by decide)⟩⟩

/-- C7 as stated fails: the same step twice, the transport failing the first
call in one run and the second call in the other, with the same status.  The
runs fail at steps 1 and 2 and return the same error, so no function of the
returned `Err` gives the index of the failing step. -/
theorem Update_err_identifies_step_counterexample :
    (dispatched scripted "i1" twice [Reply.mk 500 Any.nil]).length = 1 ∧
      (dispatched scripted "i1" twice [Reply.mk 200 Any.nil, Reply.mk 500 Any.nil]).length = 2 ∧
      (Update scripted "i1" twice [Reply.mk 500 Any.nil]).1.Err =
        some (StatusError.mk Verb.post "/instances/i1/enlarge-volume" 500) ∧
      (Update scripted "i1" twice [Reply.mk 200 Any.nil, Reply.mk 500 Any.nil]).1.Err =
        some (StatusError.mk Verb.post "/instances/i1/enlarge-volume" 500) ∧
      ¬ ∃ recover : Option StatusError → Nat,
        recover (Update scripted "i1" twice [Reply.mk 500 Any.nil]).1.Err = 1 ∧
          recover (Update scripted "i1" twice
            [Reply.mk 200 Any.nil, Reply.mk 500 Any.nil]).1.Err = 2 := by
  have e1 : (Update scripted "i1" twice [Reply.mk 500 Any.nil]).1.Err =
      some (StatusError.mk Verb.post "/instances/i1/enlarge-volume" 500) := by
    simp [Update, Update.loop, scripted, scriptedCall, nextReply, twice]
  have e2 : (Update scripted "i1" twice [Reply.mk 200 Any.nil, Reply.mk 500 Any.nil]).1.Err =
      some (StatusError.mk Verb.post "/instances/i1/enlarge-volume" 500) := by
    simp [Update, Update.loop, scripted, scriptedCall, nextReply, twice]
  refine ⟨?_, ?_, e1, e2, ?_⟩
  · simp [dispatched, Update, Update.loop, recording, scripted, scriptedCall, nextReply, twice]
  · simp [dispatched, Update, Update.loop, recording, scripted, scriptedCall, nextReply, twice]
  · rintro ⟨recover, h1, h2⟩
    rw [e1] at h1
    rw [e2, h1] at h2
    exact absurd h2 (by decide)

/-- C7 as amended: when a step fails, `Update` returns the error of the
transport for that step as it is; two runs failing at steps `k1` and `k2` with
the same transport error `e` return the same `Err`, namely `e`. -/
theorem Update_err_is_transport_err {σ ε : Type} (c : ServiceClient σ ε)
    (instanceId : String) (e : ε)
    (opts1 : List UpdateOpt) (k1 : Nat) (s1 : σ) (o1 : UpdateOpt)
    (opts2 : List UpdateOpt) (k2 : Nat) (s2 : σ) (o2 : UpdateOpt)
    (hk1 : 1 ≤ k1) (hstep1 : opts1[k1 - 1]? = some o1)
    (hok1 : AllSucceed c instanceId (opts1.take (k1 - 1)) (Any.nil, s1))
    (hfail1 : (answer c instanceId o1
        (after c instanceId (opts1.take (k1 - 1)) (Any.nil, s1)).1
        (after c instanceId (opts1.take (k1 - 1)) (Any.nil, s1)).2).1.2 = some e)
    (hk2 : 1 ≤ k2) (hstep2 : opts2[k2 - 1]? = some o2)
    (hok2 : AllSucceed c instanceId (opts2.take (k2 - 1)) (Any.nil, s2))
    (hfail2 : (answer c instanceId o2
        (after c instanceId (opts2.take (k2 - 1)) (Any.nil, s2)).1
        (after c instanceId (opts2.take (k2 - 1)) (Any.nil, s2)).2).1.2 = some e) :
    (Update c instanceId opts1 s1).1.Err = some e ∧
      (Update c instanceId opts2 s2).1.Err = some e ∧
      (Update c instanceId opts1 s1).1.Err = (Update c instanceId opts2 s2).1.Err := by
  have hl1 : k1 ≤ opts1.length := by
    have h := (List.getElem?_eq_some_iff.mp hstep1).1
    omega
  have hl2 : k2 ≤ opts2.length := by
    have h := (List.getElem?_eq_some_iff.mp hstep2).1
    omega
  have h1 := (Update_fail_at c instanceId opts1 k1 s1 o1 e hk1 hl1 hstep1 hok1 hfail1).2.2.2
  have h2 := (Update_fail_at c instanceId opts2 k2 s2 o2 e hk2 hl2 hstep2 hok2 hfail2).2.2.2
  exact ⟨h1, h2, h1.trans h2.symm⟩

/-- The two runs of the counterexample, failing at steps 1 and 2, return the
same error. -/
theorem Update_err_is_transport_err_witness :
    (Update scripted "i1" twice [Reply.mk 500 Any.nil]).1.Err =
      (Update scripted "i1" twice [Reply.mk 200 Any.nil, Reply.mk 500 Any.nil]).1.Err :=
  (Update_err_is_transport_err scripted "i1"
    (StatusError.mk Verb.post "/instances/i1/enlarge-volume" 500)
    twice 1 [Reply.mk 500 Any.nil]
    (UpdateOpt.mk "size" (Any.int 10) "enlarge-volume" "post")
    twice 2 [Reply.mk 200 Any.nil, Reply.mk 500 Any.nil]
    (UpdateOpt.mk "size" (Any.int 10) "enlarge-volume" "post")
    (by decide) rfl
    (by simp [AllSucceed, twice])
    (by simp [after, twice, answer, send, stepRequest, scripted, scriptedCall, nextReply])
    (by decide) rfl
    (by simp [AllSucceed, twice, answer, send, stepRequest, scripted, scriptedCall, nextReply])
    (by simp [after, twice, answer, send, stepRequest, scripted, scriptedCall,
      nextReply])).2.2

end Instances
